import Mathlib

/-!
Shallow embedding of the `ecs-trigger` subsystem of the repository
(`src/ecs-trigger/{types,aws,discovery,runner,interactive,index,errors}.ts`).

JavaScript strings are modelled as `List Char` (`JStr`), so that JS string
operations (`===`, `endsWith`, truthiness of `""`, regex scans) become
executable list functions.  Optional/undefined values are `Option`.
AWS network calls are modelled as oracle functions supplied as parameters;
a call sequence that can observe different answers per call (task polling)
is an oracle indexed by the call number.  Fields that the TypeScript source
reads through a non-null assertion (`x!`) after the surrounding code has
already guaranteed their presence are modelled as non-optional fields of
the oracle's response type.
-/

namespace EcsTrigger

/-- JavaScript string, modelled as a list of characters. -/
abbrev JStr := List Char

/-- JS truthiness of a possibly-undefined string: `undefined` and `""` are falsy. -/
def jsTruthy : Option JStr → Bool
  | none => false
  | some s => ¬ s.isEmpty

/-- JS falsiness of a possibly-undefined string (`!s` in the source). -/
def strFalsy (s : Option JStr) : Bool := ¬ jsTruthy s

/-- JS `a || b` on possibly-undefined strings: first truthy operand wins. -/
def jsOrStr (a b : Option JStr) : Option JStr :=
  if jsTruthy a then a else b

/-- `s.endsWith(p)` on JS strings. -/
def endsWith (s p : JStr) : Bool := decide (p <:+ s)

/-- `s.startsWith(p)` / prefix test used by the substring scan below. -/
def startsWithJ : JStr → JStr → Bool
  | _, [] => true
  | [], _ :: _ => false
  | c :: s, p :: ps => c == p && startsWithJ s ps

/--
Scan `s` left to right for the first position where `pat` matches and return
the remainder of the string after the match (the mechanism behind
`String.prototype.includes` and the regex search in `getTaskDefinitionFamily`).
-/
def findSub (pat : JStr) : JStr → Option JStr
  | [] => if startsWithJ [] pat then some ((@List.nil Char).drop pat.length) else none
  | s@(_ :: t) =>
    if startsWithJ s pat then some (s.drop pat.length) else findSub pat t

/-- `s.includes(pat)` on JS strings. -/
def containsSub (pat s : JStr) : Bool := (findSub pat s).isSome

/-- ECS launch type (`LaunchType` from `@aws-sdk/client-ecs`). -/
inductive LaunchType where
  | EC2
  | FARGATE
  | EXTERNAL
deriving DecidableEq, Repr

/-- `AssignPublicIp` enumeration of the ECS API. -/
inductive Apip where
  | ENABLED
  | DISABLED
deriving DecidableEq, Repr

/-- `awsvpcConfiguration` in ECS format (lower-case field names). -/
structure AwsvpcConfiguration where
  subnets : List JStr
  securityGroups : Option (List JStr)
  assignPublicIp : Option Apip
deriving DecidableEq, Repr

/-- ECS-format network configuration (`{ awsvpcConfiguration: ... }`). -/
structure NetworkConfiguration where
  awsvpcConfiguration : Option AwsvpcConfiguration
deriving DecidableEq, Repr

/--
Raw `AwsVpcConfiguration` payload as returned by the EventBridge API, which
is inconsistent about field-name casing: each logical field may arrive under
its upper-case or its lower-case name (`discovery.ts`, comment above
`convertNetworkConfiguration`).  An absent field is `none`.
-/
structure EbAwsvpcRaw where
  SubnetsU : Option (List JStr)
  subnetsL : Option (List JStr)
  SecurityGroupsU : Option (List JStr)
  securityGroupsL : Option (List JStr)
  AssignPublicIpU : Option Apip
  assignPublicIpL : Option Apip
deriving DecidableEq, Repr

/-- Raw EventBridge network configuration: the wrapper object may also arrive
under either casing. -/
structure EbNetworkConfigurationRaw where
  awsvpcConfigurationL : Option EbAwsvpcRaw
  AwsvpcConfigurationU : Option EbAwsvpcRaw
deriving DecidableEq, Repr

/--
`convertNetworkConfiguration` from `discovery.ts` (lines 400-423): normalize
an EventBridge network configuration, tolerating both field-name casings
(`a || b` on object-valued and array-valued fields is `Option.orElse`, since
present objects and arrays are always truthy in JS; the `AssignPublicIp`
enumeration values are non-empty strings, hence likewise truthy when present).
Returns `none` when the subnet list is missing or empty
(`if (!subnets?.length) return undefined`).
-/
def convertNetworkConfiguration (ebConfig : Option EbNetworkConfigurationRaw) :
    Option NetworkConfiguration :=
  match ebConfig with
  | none => none
  | some cfg =>
    match cfg.awsvpcConfigurationL.orElse (fun _ => cfg.AwsvpcConfigurationU) with
    | none => none
    | some awsvpc =>
      let subnets := awsvpc.SubnetsU.orElse (fun _ => awsvpc.subnetsL)
      let securityGroups := awsvpc.SecurityGroupsU.orElse (fun _ => awsvpc.securityGroupsL)
      let assignPublicIp := awsvpc.AssignPublicIpU.orElse (fun _ => awsvpc.assignPublicIpL)
      match subnets with
      | none => none
      | some subnetList =>
        if subnetList.isEmpty then none
        else some { awsvpcConfiguration := some {
          subnets := subnetList
          securityGroups := securityGroups
          assignPublicIp := assignPublicIp } }

/-- Provenance tag of a scheduled task (`ScheduledTaskSource` in `types.ts`). -/
inductive ScheduledTaskSource where
  | eventbridgeRules
  | eventbridgeScheduler
deriving DecidableEq, Repr

/-- `ScheduledTask` from `types.ts`. -/
structure ScheduledTask where
  ruleName : JStr
  ruleArn : JStr
  scheduleExpression : Option JStr
  clusterArn : JStr
  taskDefinitionArn : JStr
  networkConfiguration : Option NetworkConfiguration
  launchType : Option LaunchType
  platformVersion : Option JStr
  enabled : Bool
  taskCount : Int
  source : ScheduledTaskSource
deriving DecidableEq, Repr

/-- `ClusterInfo` from `types.ts`. -/
structure ClusterInfo where
  clusterArn : JStr
  clusterName : JStr
  status : Option JStr
  runningTasksCount : Int
  pendingTasksCount : Int
  activeServicesCount : Int
deriving DecidableEq, Repr

/-- One entry of the `failures` array of a `RunTask` response. -/
structure RunTaskFailure where
  arn : Option JStr
  reason : Option JStr
deriving DecidableEq, Repr

/-- The `EcsTriggerError` class hierarchy from `errors.ts`, identified by
subclass and constructor arguments. -/
inductive EcsError where
  | credentials (message profile : JStr)
  | clusterNotFound (clusterIdentifier : JStr)
  | ruleNotFound (ruleName : JStr)
  | taskStart (message : JStr) (failures : List RunTaskFailure)
  | noEcsTarget (ruleName : JStr)
  | generic (message : JStr)
deriving DecidableEq, Repr

/-- A thrown JS error: either an `EcsTriggerError` subclass or a plain `Error`
(the selectors in `interactive.ts` throw plain `Error`s). -/
inductive JsError where
  | ecsTrigger (e : EcsError)
  | plain (message : JStr)
deriving DecidableEq, Repr

/-- The `instanceof EcsTriggerError` test performed by `main` in `index.ts`. -/
def JsError.isEcsTriggerError : JsError → Bool
  | .ecsTrigger _ => true
  | .plain _ => false

/-- Fuel-indexed worker for `chunksOf`; the fuel bounds the number of chunks
and is structurally consumed so that the function reduces inside the kernel. -/
def chunksOfFuel (n : Nat) : Nat → List α → List (List α)
  | 0, _ => []
  | _, [] => []
  | fuel + 1, l@(_ :: xs) => l.take n :: chunksOfFuel n fuel (xs.drop (n - 1))

/-- Split a list into consecutive chunks of `n` elements (the
`for (let i = 0; i < xs.length; i += n) xs.slice(i, i + n)` batching loops). -/
def chunksOf (n : Nat) (l : List α) : List (List α) := chunksOfFuel n l.length l

/-- Decidable equality for `Except`, needed to evaluate the embedding's
results on concrete inputs. -/
instance {ε α : Type _} [DecidableEq ε] [DecidableEq α] : DecidableEq (Except ε α) :=
  fun x y =>
  match x, y with
  | .ok a, .ok b =>
    if h : a = b then isTrue (by rw [h]) else isFalse (by intro he; cases he; exact h rfl)
  | .error a, .error b =>
    if h : a = b then isTrue (by rw [h]) else isFalse (by intro he; cases he; exact h rfl)
  | .ok _, .error _ => isFalse (by intro h; cases h)
  | .error _, .ok _ => isFalse (by intro h; cases h)

/-- Raw cluster description from `DescribeClusters`; `clusterArn` and
`clusterName` are read through non-null assertions by `discoverClusters` and
are modelled as present. -/
structure RawCluster where
  clusterArn : JStr
  clusterName : JStr
  status : Option JStr
  runningTasksCount : Option Int
  pendingTasksCount : Option Int
  activeServicesCount : Option Int
deriving DecidableEq, Repr

/-- The `ClusterInfo` record pushed by `discoverClusters` for one described
cluster (field defaults `?? 0`). -/
def toClusterInfo (c : RawCluster) : ClusterInfo :=
  { clusterArn := c.clusterArn
    clusterName := c.clusterName
    status := c.status
    runningTasksCount := c.runningTasksCount.getD 0
    pendingTasksCount := c.pendingTasksCount.getD 0
    activeServicesCount := c.activeServicesCount.getD 0 }

/-- The describe phase of `discoverClusters`: one `DescribeClusters` call per
batch, concatenating the described clusters in order.  The per-ARN oracle
`describe` models the AWS contract that `DescribeClusters` returns one
description per requested ARN, in request order. -/
def describeClusterBatches (describe : JStr → RawCluster) :
    List (List JStr) → List ClusterInfo
  | [] => []
  | b :: bs => b.map (fun a => toClusterInfo (describe a)) ++ describeClusterBatches describe bs

/--
`discoverClusters` from `discovery.ts` (lines 173-222): the paginated listing
phase is abstracted into its result `clusterArns`; if no clusters were listed
return `[]`, otherwise describe the ARNs in batches of 100 and concatenate.
-/
def discoverClusters (describe : JStr → RawCluster) (clusterArns : List JStr) :
    List ClusterInfo :=
  if clusterArns.isEmpty then []
  else describeClusterBatches describe (chunksOf 100 clusterArns)

/-- The identifier match of `findClusterByName`: exact name, exact ARN, or
ARN ending in `/identifier`. -/
def matchesCluster (clusterName : JStr) (c : ClusterInfo) : Bool :=
  c.clusterName == clusterName ||
  c.clusterArn == clusterName ||
  endsWith c.clusterArn ('/' :: clusterName)

/--
`findClusterByName` from `discovery.ts` (lines 453-472): re-run discovery,
return the first cluster matching the identifier, otherwise throw
`ClusterNotFoundError` carrying the identifier.
-/
def findClusterByName (describe : JStr → RawCluster) (clusterArns : List JStr)
    (clusterName : JStr) : Except JsError ClusterInfo :=
  match (discoverClusters describe clusterArns).find? (matchesCluster clusterName) with
  | some cluster => .ok cluster
  | none => .error (.ecsTrigger (.clusterNotFound clusterName))

/-- Trailing path segment of an ARN (the part after the last slash). -/
def lastSegment (s : JStr) : JStr := (s.reverse.takeWhile (· ≠ '/')).reverse

/-- `EcsParameters` of an EventBridge rule target; `TaskDefinitionArn` is read
through a non-null assertion and modelled as present. -/
structure EbEcsParameters where
  TaskDefinitionArn : JStr
  NetworkConfiguration : Option EbNetworkConfigurationRaw
  LaunchType : Option LaunchType
  PlatformVersion : Option JStr
  TaskCount : Option Int
deriving DecidableEq, Repr

/-- An EventBridge rule target. -/
structure EbTarget where
  Arn : Option JStr
  EcsParameters : Option EbEcsParameters
deriving DecidableEq, Repr

/-- An EventBridge rule; `Arn` is read through a non-null assertion and
modelled as present. -/
structure EbRule where
  Name : Option JStr
  Arn : JStr
  ScheduleExpression : Option JStr
  State : Option JStr
deriving DecidableEq, Repr

/--
`parseEcsTarget` from `discovery.ts` (lines 425-451): a target qualifies only
if it carries `EcsParameters` and a (truthy) target ARN, which for ECS targets
is the cluster ARN.
-/
def parseEcsTarget (rule : EbRule) (target : EbTarget) : Option ScheduledTask :=
  match target.EcsParameters with
  | none => none
  | some params =>
    match target.Arn with
    | none => none
    | some clusterArn =>
      if clusterArn.isEmpty then none
      else some {
        ruleName := rule.Name.getD []
        ruleArn := rule.Arn
        scheduleExpression := rule.ScheduleExpression
        clusterArn := clusterArn
        taskDefinitionArn := params.TaskDefinitionArn
        networkConfiguration := convertNetworkConfiguration params.NetworkConfiguration
        launchType := params.LaunchType
        platformVersion := params.PlatformVersion
        enabled := rule.State == some "ENABLED".data
        taskCount := params.TaskCount.getD 1
        source := .eventbridgeRules }

/-- Keep a parsed task when no (truthy) cluster filter is given or the task's
cluster ARN equals the filter (`if (clusterArn && t.clusterArn !== clusterArn) continue`). -/
def passesClusterFilter (clusterFilter : Option JStr) (taskClusterArn : JStr) : Bool :=
  !(jsTruthy clusterFilter) || clusterFilter == some taskClusterArn

/-- Oracles for the rule-based source: the flattened paginated `ListRules`
result, and `ListTargetsByRule` per rule name; either call may throw. -/
structure RulesEnv where
  listRules : Except JStr (List EbRule)
  listTargets : JStr → Except JStr (List EbTarget)

/-- The per-rule loop body of `discoverFromEventBridgeRules`: parse every
target of the rule and apply the cluster filter. -/
def ruleTasks (clusterFilter : Option JStr) (rule : EbRule) (targets : List EbTarget) :
    List ScheduledTask :=
  targets.filterMap (fun target =>
    match parseEcsTarget rule target with
    | none => none
    | some st => if passesClusterFilter clusterFilter st.clusterArn then some st else none)

/-- The rule iteration of `discoverFromEventBridgeRules`; a rule with a falsy
name is skipped, a failing `ListTargetsByRule` call propagates. -/
def rulesLoop (env : RulesEnv) (clusterFilter : Option JStr) :
    List EbRule → Except JStr (List ScheduledTask)
  | [] => .ok []
  | rule :: rest =>
    if strFalsy rule.Name then rulesLoop env clusterFilter rest
    else
      match env.listTargets (rule.Name.getD []) with
      | .error e => .error e
      | .ok targets =>
        match rulesLoop env clusterFilter rest with
        | .error e => .error e
        | .ok tail => .ok (ruleTasks clusterFilter rule targets ++ tail)

/-- `discoverFromEventBridgeRules` from `discovery.ts` (lines 267-311). -/
def discoverFromEventBridgeRules (env : RulesEnv) (clusterFilter : Option JStr) :
    Except JStr (List ScheduledTask) :=
  match env.listRules with
  | .error e => .error e
  | .ok rules => rulesLoop env clusterFilter rules

/-- Scheduler-side `EcsParameters` (upper-case network configuration shape);
`TaskDefinitionArn` is read through a non-null assertion and modelled as
present. -/
structure SchedAwsvpc where
  Subnets : Option (List JStr)
  SecurityGroups : Option (List JStr)
  AssignPublicIp : Option Apip
deriving DecidableEq, Repr

/-- Scheduler-side network configuration wrapper. -/
structure SchedNetworkConfiguration where
  AwsvpcConfiguration : Option SchedAwsvpc
deriving DecidableEq, Repr

/-- Scheduler-side ECS parameters. -/
structure SchedEcsParameters where
  TaskDefinitionArn : JStr
  NetworkConfiguration : Option SchedNetworkConfiguration
  LaunchType : Option LaunchType
  PlatformVersion : Option JStr
  TaskCount : Option Int
deriving DecidableEq, Repr

/-- Target of an EventBridge Scheduler schedule. -/
structure SchedTarget where
  Arn : Option JStr
  EcsParameters : Option SchedEcsParameters
deriving DecidableEq, Repr

/-- A `GetSchedule` response. -/
structure GetScheduleResp where
  Target : Option SchedTarget
  Arn : Option JStr
  ScheduleExpression : Option JStr
  State : Option JStr
deriving DecidableEq, Repr

/-- A `ListSchedules` summary entry. -/
structure SchedSummary where
  Name : Option JStr
  GroupName : Option JStr
deriving DecidableEq, Repr

/-- Oracles for the scheduler-based source: the flattened paginated
`ListSchedules` result and `GetSchedule` per (name, group); either may throw. -/
structure SchedulerEnv where
  listSchedules : Except JStr (List SchedSummary)
  getSchedule : JStr → Option JStr → Except JStr GetScheduleResp

/-- The Scheduler-to-ECS network-configuration conversion inlined in
`discoverFromEventBridgeScheduler` (upper-case fields copied verbatim). -/
def schedNetworkConfiguration (p : SchedEcsParameters) : Option NetworkConfiguration :=
  match p.NetworkConfiguration with
  | none => none
  | some nc =>
    match nc.AwsvpcConfiguration with
    | none => none
    | some awsvpc => some { awsvpcConfiguration := some {
        subnets := (awsvpc.Subnets).getD []
        securityGroups := awsvpc.SecurityGroups
        assignPublicIp := awsvpc.AssignPublicIp } }

/-- The per-schedule conversion of `discoverFromEventBridgeScheduler`: a
schedule qualifies only if its target carries `EcsParameters` and its target
ARN refers to a cluster; the cluster filter compares target ARN equality. -/
def scheduleTask (clusterFilter : Option JStr) (name : JStr) (resp : GetScheduleResp) :
    Option ScheduledTask :=
  match resp.Target with
  | none => none
  | some target =>
    match target.EcsParameters with
    | none => none
    | some params =>
      match target.Arn with
      | none => none
      | some targetArn =>
        if !containsSub ":cluster/".data targetArn then none
        else if !(passesClusterFilter clusterFilter targetArn) then none
        else some {
          ruleName := name
          ruleArn := (jsOrStr resp.Arn (some ("scheduler:".data ++ name))).getD []
          scheduleExpression := resp.ScheduleExpression
          clusterArn := targetArn
          taskDefinitionArn := params.TaskDefinitionArn
          networkConfiguration := schedNetworkConfiguration params
          launchType := params.LaunchType
          platformVersion := params.PlatformVersion
          enabled := resp.State == some "ENABLED".data
          taskCount := params.TaskCount.getD 1
          source := .eventbridgeScheduler }

/-- The schedule iteration of `discoverFromEventBridgeScheduler`: a schedule
with a falsy name is skipped, and a failing `GetSchedule` call is swallowed by
the per-schedule `try`/`catch` (the schedule contributes nothing). -/
def schedulesLoop (env : SchedulerEnv) (clusterFilter : Option JStr) :
    List SchedSummary → List ScheduledTask
  | [] => []
  | s :: rest =>
    if strFalsy s.Name then schedulesLoop env clusterFilter rest
    else
      match env.getSchedule (s.Name.getD []) s.GroupName with
      | .error _ => schedulesLoop env clusterFilter rest
      | .ok resp =>
        match scheduleTask clusterFilter (s.Name.getD []) resp with
        | none => schedulesLoop env clusterFilter rest
        | some st => st :: schedulesLoop env clusterFilter rest

/-- `discoverFromEventBridgeScheduler` from `discovery.ts` (lines 313-393). -/
def discoverFromEventBridgeScheduler (env : SchedulerEnv) (clusterFilter : Option JStr) :
    Except JStr (List ScheduledTask) :=
  match env.listSchedules with
  | .error e => .error e
  | .ok schedules => .ok (schedulesLoop env clusterFilter schedules)

/--
`discoverScheduledTasks` from `discovery.ts` (lines 224-265): run both
sub-discoveries, each inside a `try`/`catch` that turns a thrown failure into
zero results from that source, and concatenate rule-based results before
scheduler-based results.
-/
def discoverScheduledTasks (rulesEnv : RulesEnv) (schedulerEnv : SchedulerEnv)
    (clusterFilter : Option JStr) : List ScheduledTask :=
  (match discoverFromEventBridgeRules rulesEnv clusterFilter with
   | .ok tasks => tasks
   | .error _ => []) ++
  (match discoverFromEventBridgeScheduler schedulerEnv clusterFilter with
   | .ok tasks => tasks
   | .error _ => [])

/-- The regex pattern text of `getTaskDefinitionFamily`. -/
def tdPat : JStr := "task-definition/".data

/-- Left-to-right scan for the regex `task-definition\/([^:]+)`: at each
position, if the literal pattern matches and at least one non-colon character
follows, capture the maximal run of non-colon characters; otherwise resume one
position further (the regex engine's restart). -/
def tdFamilyAux : JStr → Option JStr
  | [] => none
  | s@(_ :: t) =>
    if startsWithJ s tdPat then
      let cap := (s.drop tdPat.length).takeWhile (· ≠ ':')
      if cap.isEmpty then tdFamilyAux t else some cap
    else tdFamilyAux t

/-- `getTaskDefinitionFamily` from `discovery.ts` (lines 489-492): the ARN
segment between `task-definition/` and the revision suffix, or the whole ARN
when the pattern does not match. -/
def getTaskDefinitionFamily (taskDefinitionArn : JStr) : JStr :=
  (tdFamilyAux taskDefinitionArn).getD taskDefinitionArn

/-- An ECS service description, restricted to the fields
`findNetworkConfigurationFromService` reads. -/
structure EcsService where
  serviceName : Option JStr
  taskDefinition : Option JStr
  networkConfiguration : Option NetworkConfiguration
deriving DecidableEq, Repr

/-- The first-pass condition of `findNetworkConfigurationFromService`:
a service with a (truthy) task definition of the target family and any
network configuration (`if (serviceFamily === targetFamily && service.networkConfiguration)`). -/
def serviceFamilyMatch (targetFamily : JStr) (s : EcsService) : Bool :=
  !(strFalsy s.taskDefinition) &&
  getTaskDefinitionFamily (s.taskDefinition.getD []) == targetFamily &&
  s.networkConfiguration.isSome

/-- The fallback-pass condition: any service whose configuration has a
non-empty subnet list (`service.networkConfiguration?.awsvpcConfiguration?.subnets?.length`). -/
def serviceHasSubnets (s : EcsService) : Bool :=
  match s.networkConfiguration with
  | none => false
  | some nc =>
    match nc.awsvpcConfiguration with
    | none => false
    | some awsvpc => !awsvpc.subnets.isEmpty

/-- One batched describe-and-scan pass: describe each batch of service ARNs
and return the first described service satisfying `p`.  The per-ARN oracle
`describeService` models the AWS contract that `DescribeServices` returns one
description per requested ARN, in request order. -/
def findServiceInBatches (p : EcsService → Bool) (describeService : JStr → EcsService) :
    List (List JStr) → Option EcsService
  | [] => none
  | b :: bs =>
    match (b.map describeService).find? p with
    | some s => some s
    | none => findServiceInBatches p describeService bs

/--
`findNetworkConfigurationFromService` from `discovery.ts` (lines 618-708):
after the (abstracted) paginated service listing, describe the services in
batches of 10; the first pass returns the configuration of the first service
whose task-definition family equals the target's family and which carries a
network configuration; only when that pass finds nothing does a second pass
return the configuration of the first service with a non-empty subnet list.
-/
def findNetworkConfigurationFromService (describeService : JStr → EcsService)
    (serviceArns : List JStr) (taskDefinitionArn : JStr) : Option NetworkConfiguration :=
  let targetFamily := getTaskDefinitionFamily taskDefinitionArn
  if serviceArns.isEmpty then none
  else
    match findServiceInBatches (serviceFamilyMatch targetFamily) describeService
        (chunksOf 10 serviceArns) with
    | some s => s.networkConfiguration
    | none =>
      match findServiceInBatches serviceHasSubnets describeService (chunksOf 10 serviceArns) with
      | some s => s.networkConfiguration
      | none => none

/-- A container of a described ECS task (`ContainerInfo` source fields). -/
structure EcsContainer where
  name : Option JStr
  containerArn : Option JStr
  lastStatus : Option JStr
  exitCode : Option Int
  reason : Option JStr
  healthStatus : Option JStr
deriving DecidableEq, Repr

/-- A described ECS task, restricted to the fields the runner reads.
`Date` values are modelled as opaque integers. -/
structure EcsTask where
  taskArn : Option JStr
  clusterArn : Option JStr
  taskDefinitionArn : Option JStr
  lastStatus : Option JStr
  desiredStatus : Option JStr
  stopCode : Option JStr
  stoppedReason : Option JStr
  startedBy : Option JStr
  launchType : Option JStr
  platformVersion : Option JStr
  containers : List EcsContainer
  createdAt : Option Int
  startedAt : Option Int
deriving DecidableEq, Repr

/-- `ContainerInfo` from `types.ts`. -/
structure ContainerInfo where
  name : Option JStr
  containerArn : Option JStr
  lastStatus : Option JStr
  exitCode : Option Int
  reason : Option JStr
  healthStatus : Option JStr
deriving DecidableEq, Repr

/-- `TaskExecutionResult` from `types.ts`.  `types.ts` declares `consoleUrl`
as a required `string`, but the object literal returned by `formatTaskResult`
in `runner.ts` carries no `consoleUrl` property, so reading the field at run
time yields `undefined`; the field is therefore modelled as optional so that
the embedding can express the value the code actually produces. -/
structure TaskExecutionResult where
  taskArn : JStr
  clusterArn : JStr
  taskDefinitionArn : Option JStr
  lastStatus : Option JStr
  desiredStatus : Option JStr
  startedBy : Option JStr
  launchType : Option JStr
  platformVersion : Option JStr
  containers : List ContainerInfo
  createdAt : Option Int
  startedAt : Option Int
  consoleUrl : Option JStr
deriving DecidableEq, Repr

/-- `formatTaskResult` from `runner.ts` (lines 198-221): normalize the final
task description field by field.  The returned object literal sets every
`TaskExecutionResult` field except `consoleUrl`. -/
def formatTaskResult (task : EcsTask) : TaskExecutionResult :=
  { taskArn := task.taskArn.getD []
    clusterArn := task.clusterArn.getD []
    taskDefinitionArn := task.taskDefinitionArn
    lastStatus := task.lastStatus
    desiredStatus := task.desiredStatus
    startedBy := task.startedBy
    launchType := task.launchType
    platformVersion := task.platformVersion
    containers := task.containers.map (fun c =>
      { name := c.name
        containerArn := c.containerArn
        lastStatus := c.lastStatus
        exitCode := c.exitCode
        reason := c.reason
        healthStatus := c.healthStatus })
    createdAt := task.createdAt
    startedAt := task.startedAt
    consoleUrl := none }

/-- The console deep-link line printed by `handleExecuteMode`
(`index.ts` line 243): `\nAWS Console: ${result.consoleUrl}`; interpolating
an absent value prints the text `undefined`. -/
def consoleLine (result : TaskExecutionResult) : JStr :=
  "\nAWS Console: ".data ++ (match result.consoleUrl with
    | some url => url
    | none => "undefined".data)

/-- `MAX_POLL_ATTEMPTS` from `runner.ts`. -/
def MAX_POLL_ATTEMPTS : Nat := 30

/-- The polling exit condition of `waitForTaskStart`: last status is
RUNNING, STOPPED or DEPROVISIONING. -/
def isPollExitStatus (status : Option JStr) : Bool :=
  status == some "RUNNING".data ||
  status == some "STOPPED".data ||
  status == some "DEPROVISIONING".data

/-- The stop condition of `waitForTaskStart`
(`if (task.stopCode || task.stoppedReason)`). -/
def hasStopIndicator (task : EcsTask) : Bool :=
  jsTruthy task.stopCode || jsTruthy task.stoppedReason

/-- The failure message built when a stop indicator is observed:
`Task stopped: ${task.stoppedReason || task.stopCode || "unknown reason"}`. -/
def stopMessage (task : EcsTask) : JStr :=
  "Task stopped: ".data ++
    (jsOrStr task.stoppedReason (jsOrStr task.stopCode (some "unknown reason".data))).getD []

/-- The polling loop of `waitForTaskStart`.  `describePoll n` is the task list
returned by the `DescribeTasks` call number `n` (0-based); `attempts` is the
loop counter and `fuel = MAX_POLL_ATTEMPTS - attempts` the remaining
iterations.  When the attempts are exhausted, one final describe is issued and
its first task returned, or a hard "polling timed out" failure raised if it
returns no task. -/
def waitLoop (describePoll : Nat → List EcsTask) : Nat → Nat → Except JsError EcsTask
  | attempts, 0 =>
    match describePoll attempts with
    | [] => .error (.ecsTrigger (.taskStart "Task polling timed out".data []))
    | task :: _ => .ok task
  | attempts, fuel + 1 =>
    match describePoll attempts with
    | [] => .error (.ecsTrigger (.taskStart "Task not found during polling".data []))
    | task :: _ =>
      if isPollExitStatus task.lastStatus then .ok task
      else if hasStopIndicator task then
        .error (.ecsTrigger (.taskStart (stopMessage task) []))
      else waitLoop describePoll (attempts + 1) fuel

/-- `waitForTaskStart` from `runner.ts` (lines 128-196). -/
def waitForTaskStart (describePoll : Nat → List EcsTask) : Except JsError EcsTask :=
  waitLoop describePoll 0 MAX_POLL_ATTEMPTS

/-- The `RunTask` response (`failures`/`tasks` absent is equivalent to empty
for every read the runner performs). -/
structure RunTaskResponse where
  failures : List RunTaskFailure
  tasks : List EcsTask
deriving Repr

/-- Oracle world for one `runScheduledTask` invocation: the result of the
sibling-service strategy, the result of the recent-task-history strategy, the
`RunTask` response, and the polling describe sequence. -/
structure RunnerWorld where
  svcConfig : Option NetworkConfiguration
  histConfig : Option NetworkConfiguration
  runTask : RunTaskResponse
  describePoll : Nat → List EcsTask

/-- Which AWS interactions `runScheduledTask` performed: whether each
resolution strategy was invoked, and the network configuration submitted with
the launch request (`none` while no launch request was issued). -/
structure RunnerTrace where
  svcCalled : Bool
  histCalled : Bool
  launchConfig : Option (Option NetworkConfiguration)

/-- Whether a launch request was submitted. -/
def RunnerTrace.launchSubmitted (tr : RunnerTrace) : Bool := tr.launchConfig.isSome

/-- The message of the `TaskStartError` raised when no network configuration
could be located. -/
def noNetworkConfigMessage : JStr :=
  ("No network configuration found. Fargate tasks require network configuration " ++
   "(subnets/security groups). Could not find configuration from services or recent " ++
   "tasks in the cluster.").data

/-- The network-configuration resolution block of `runScheduledTask`
(`runner.ts` lines 33-69): performed only when the task carries no network
configuration and its launch type is FARGATE; the sibling-service strategy is
consulted first, the recent-task-history strategy only when the first
returned nothing, and a hard `TaskStartError` is raised when both returned
nothing.  The two booleans record which strategies were invoked. -/
def resolveNetworkConfiguration (task : ScheduledTask)
    (svcConfig histConfig : Option NetworkConfiguration) :
    Except JsError (Option NetworkConfiguration) × Bool × Bool :=
  if task.networkConfiguration.isNone && (task.launchType == some .FARGATE) then
    match svcConfig with
    | some nc => (.ok (some nc), true, false)
    | none =>
      match histConfig with
      | some nc => (.ok (some nc), true, true)
      | none => (.error (.ecsTrigger (.taskStart noNetworkConfigMessage [])), true, true)
  else (.ok task.networkConfiguration, false, false)

/-- The launch-and-poll phase of `runScheduledTask` (lines 76-119): surface
per-task failures, the missing-task and missing-ARN invariant violations,
then poll and normalize. -/
def launchPhase (w : RunnerWorld) : Except JsError TaskExecutionResult :=
  if !w.runTask.failures.isEmpty then
    .error (.ecsTrigger (.taskStart "Task failed to start".data w.runTask.failures))
  else
    match w.runTask.tasks with
    | [] => .error (.ecsTrigger (.taskStart "No tasks returned from RunTask command".data []))
    | startedTask :: _ =>
      if strFalsy startedTask.taskArn then
        .error (.ecsTrigger (.taskStart "Task started but no ARN returned".data []))
      else
        match waitForTaskStart w.describePoll with
        | .error e => .error e
        | .ok finalTask => .ok (formatTaskResult finalTask)

/--
`runScheduledTask` from `runner.ts` (lines 19-126): resolve the network
configuration via `resolveNetworkConfiguration`, then — only if resolution
did not fail — run the launch-and-poll phase.  The launch request is
submitted (with the resolved configuration) exactly in the non-error branch,
which the returned trace records.
-/
def runScheduledTask (task : ScheduledTask) (w : RunnerWorld) :
    Except JsError TaskExecutionResult × RunnerTrace :=
  match resolveNetworkConfiguration task w.svcConfig w.histConfig with
  | (.error e, svcCalled, histCalled) =>
    (.error e, { svcCalled := svcCalled, histCalled := histCalled, launchConfig := none })
  | (.ok networkConfiguration, svcCalled, histCalled) =>
    (launchPhase w,
     { svcCalled := svcCalled, histCalled := histCalled,
       launchConfig := some networkConfiguration })

/-- `selectCluster` from `interactive.ts` (lines 4-22): an empty list throws a
plain `Error`, a singleton is returned without prompting, otherwise the
interactive choice (modelled by the `choose` oracle) is returned. -/
def selectCluster (choose : List ClusterInfo → ClusterInfo) (clusters : List ClusterInfo) :
    Except JsError ClusterInfo :=
  match clusters with
  | [] => .error (.plain "No ECS clusters found".data)
  | [c] => .ok c
  | cs => .ok (choose cs)

/-- `selectScheduledTask` from `interactive.ts` (lines 49-69), same shape. -/
def selectScheduledTask (choose : List ScheduledTask → ScheduledTask)
    (tasks : List ScheduledTask) : Except JsError ScheduledTask :=
  match tasks with
  | [] => .error (.plain "No scheduled tasks found".data)
  | [t] => .ok t
  | ts => .ok (choose ts)

/-- The failure-details text built by the `TaskStartError` constructor in
`errors.ts`: `arn: reason` pairs joined by `"; "`, with `unknown` defaults. -/
def failureDetails (failures : List RunTaskFailure) : JStr :=
  List.intercalate "; ".data (failures.map (fun f =>
    (jsOrStr f.arn (some "unknown".data)).getD [] ++ ": ".data ++
    (jsOrStr f.reason (some "unknown reason".data)).getD []))

/-- The `message` property of each `EcsTriggerError` subclass, as assembled by
the constructors in `errors.ts`. -/
def EcsError.message : EcsError → JStr
  | .credentials msg profile =>
    "Credentials error for profile \"".data ++ profile ++ "\": ".data ++ msg
  | .clusterNotFound ident => "Cluster not found: ".data ++ ident
  | .ruleNotFound ruleName => "EventBridge rule not found: ".data ++ ruleName
  | .taskStart msg failures =>
    "Failed to start task: ".data ++ msg ++
      (if failures.isEmpty then [] else " (".data ++ failureDetails failures ++ ")".data)
  | .noEcsTarget ruleName =>
    "EventBridge rule \"".data ++ ruleName ++ "\" has no ECS target".data
  | .generic msg => msg

/-- The `message` property of a thrown error. -/
def JsError.message : JsError → JStr
  | .ecsTrigger e => e.message
  | .plain msg => msg

/-- Outcome of the top level of `index.ts`. -/
inductive TopOutcome where
  | ok
  | errorExitOne (message : JStr)
  | unexpectedExit (e : JsError)
deriving DecidableEq, Repr

/-- The error handling of `main` in `index.ts` (lines 79-88 and 246-249): an
`EcsTriggerError` becomes a single-line `Error: ...` message with exit code 1;
any other error is re-thrown and reaches the outer `main().catch` handler as
an unexpected error. -/
def mainCatch (r : Except JsError Unit) : TopOutcome :=
  match r with
  | .ok _ => .ok
  | .error e =>
    if e.isEcsTriggerError then .errorExitOne ("Error: ".data ++ e.message)
    else .unexpectedExit e

/-! ## Helper lemmas -/

theorem chunksOfFuel_flatten {α : Type _} (n : Nat) (hn : 0 < n) :
    ∀ (fuel : Nat) (l : List α), l.length ≤ fuel → (chunksOfFuel n fuel l).flatten = l := by
  intro fuel
  induction fuel with
  | zero =>
    intro l hl
    have : l = [] := List.eq_nil_of_length_eq_zero (Nat.le_zero.mp hl)
    subst this
    rfl
  | succ fuel ih =>
    intro l hl
    cases l with
    | nil => rfl
    | cons x xs =>
      obtain ⟨m, rfl⟩ : ∃ m, n = m + 1 := ⟨n - 1, by omega⟩
      have hrec : (xs.drop m).length ≤ fuel := by
        simp only [List.length_drop]
        simp only [List.length_cons] at hl
        omega
      show ((x :: xs).take (m + 1) :: chunksOfFuel (m + 1) fuel (xs.drop (m + 1 - 1))).flatten
        = x :: xs
      rw [List.flatten_cons, Nat.add_sub_cancel, ih (xs.drop m) hrec, List.take_succ_cons,
        List.cons_append, List.take_append_drop]

theorem chunksOf_flatten {α : Type _} (n : Nat) (hn : 0 < n) (l : List α) :
    (chunksOf n l).flatten = l :=
  chunksOfFuel_flatten n hn l.length l (Nat.le_refl _)

theorem chunksOfFuel_length_le {α : Type _} (n : Nat) :
    ∀ (fuel : Nat) (l : List α), ∀ b ∈ chunksOfFuel n fuel l, b.length ≤ n := by
  intro fuel
  induction fuel with
  | zero => intro l b hb; simp [chunksOfFuel] at hb
  | succ fuel ih =>
    intro l b hb
    cases l with
    | nil => simp [chunksOfFuel] at hb
    | cons x xs =>
      simp only [chunksOfFuel, List.mem_cons] at hb
      rcases hb with rfl | hb
      · simp only [List.length_take]
        omega
      · exact ih _ b hb

theorem chunksOf_length_le {α : Type _} (n : Nat) (l : List α) :
    ∀ b ∈ chunksOf n l, b.length ≤ n :=
  chunksOfFuel_length_le n l.length l

theorem mem_chunksOf_flatten {α : Type _} {n : Nat} (hn : 0 < n) {l : List α} {b : List α}
    {a : α} (hb : b ∈ chunksOf n l) (ha : a ∈ b) : a ∈ l := by
  have : a ∈ (chunksOf n l).flatten := List.mem_flatten.mpr ⟨b, hb, ha⟩
  rwa [chunksOf_flatten n hn l] at this

theorem describeClusterBatches_eq (describe : JStr → RawCluster) (bs : List (List JStr)) :
    describeClusterBatches describe bs =
      bs.flatten.map (fun a => toClusterInfo (describe a)) := by
  induction bs with
  | nil => rfl
  | cons b rest ih =>
    simp only [describeClusterBatches, List.flatten_cons, List.map_append, ih]

theorem find?_eq_some_of_unique {α : Type _} (p : α → Bool) (c : α) :
    ∀ (l : List α), c ∈ l → (∀ d ∈ l, (p d = true ↔ d = c)) → l.find? p = some c := by
  intro l
  induction l with
  | nil => intro h; cases h
  | cons x xs ih =>
    intro hc huniq
    by_cases hx : p x = true
    · have hxeq : x = c := (huniq x (List.mem_cons_self x xs)).mp hx
      subst hxeq
      simp [List.find?, hx]
    · have hx' : p x = false := by
        revert hx
        cases p x <;> simp
      have hxc : x ≠ c := by
        intro h
        rw [(huniq x (List.mem_cons_self x xs)).mpr h] at hx'
        cases hx'
      have hcx : c ∈ xs := by
        rcases List.mem_cons.mp hc with h | h
        · exact absurd h.symm hxc
        · exact h
      have hstep : List.find? p (x :: xs) = List.find? p xs := by
        simp [List.find?, hx']
      rw [hstep]
      exact ih hcx (fun d hd => huniq d (List.mem_cons_of_mem x hd))

/-! ## C4: cluster discovery batching -/

/--
C4.  For every cluster-ARN sequence produced by the listing phase,
`discoverClusters` describes the ARNs in batches of at most 100 and returns
the described clusters concatenated in the original listing order — assuming
the `DescribeClusters` oracle reports each requested ARN faithfully, the ARN
sequence of the result equals the listed sequence, so no listed ARN is
dropped or duplicated — and an empty listing yields the empty sequence rather
than an error.
-/
theorem discoverClusters_batching_faithful (describe : JStr → RawCluster)
    (clusterArns : List JStr)
    (hdescribe : ∀ a ∈ clusterArns, (describe a).clusterArn = a) :
    (discoverClusters describe clusterArns).map (·.clusterArn) = clusterArns ∧
    (∀ b ∈ chunksOf 100 clusterArns, b.length ≤ 100) ∧
    (clusterArns = [] → discoverClusters describe clusterArns = []) := by
  refine ⟨?_, chunksOf_length_le 100 clusterArns, ?_⟩
  · unfold discoverClusters
    by_cases he : clusterArns.isEmpty
    · rw [if_pos he, List.isEmpty_iff.mp he]
      rfl
    · rw [if_neg he, describeClusterBatches_eq,
        chunksOf_flatten 100 (by omega) clusterArns, List.map_map]
      have : clusterArns.map ((fun c : ClusterInfo => c.clusterArn) ∘
          (fun a => toClusterInfo (describe a))) = clusterArns.map id :=
        List.map_congr_left (fun a ha => hdescribe a ha)
      rw [this, List.map_id]
  · intro h
    subst h
    rfl

/-- Concrete describe oracle used by the witnesses: each ARN of the shape
`e:c/name` is described as a cluster of that ARN and name. -/
def witnessRawCluster (a : JStr) : RawCluster :=
  { clusterArn := a
    clusterName := lastSegment a
    status := some "ACTIVE".data
    runningTasksCount := some 1
    pendingTasksCount := none
    activeServicesCount := none }

/-- Concrete ARN listing used by the witnesses. -/
def witnessArns : List JStr := ["e:c/a".data, "e:c/b".data]

/-- Witness for C4 at a concrete two-cluster listing. -/
theorem discoverClusters_batching_faithful_witness :
    (discoverClusters witnessRawCluster witnessArns).map (·.clusterArn) = witnessArns ∧
    (∀ b ∈ chunksOf 100 witnessArns, b.length ≤ 100) ∧
    (witnessArns = [] → discoverClusters witnessRawCluster witnessArns = []) :=
  discoverClusters_batching_faithful witnessRawCluster witnessArns (by decide)

/-! ## C7: cluster lookup by the three identifier forms -/

theorem append_slash_inj :
    ∀ (a b x y : List Char), '/' ∉ a → '/' ∉ b → a ++ '/' :: x = b ++ '/' :: y →
      a = b ∧ x = y := by
  intro a
  induction a with
  | nil =>
    intro b x y _ hb h
    cases b with
    | nil => simpa using h
    | cons c bs =>
      simp only [List.nil_append, List.cons_append, List.cons.injEq] at h
      have : ('/' : Char) ∈ c :: bs := by
        rw [← h.1]
        exact List.mem_cons_self _ _
      exact absurd this hb
  | cons d as ih =>
    intro b x y ha hb h
    cases b with
    | nil =>
      simp only [List.cons_append, List.nil_append, List.cons.injEq] at h
      have : ('/' : Char) ∈ d :: as := by
        rw [h.1]
        exact List.mem_cons_self _ _
      exact absurd this ha
    | cons e bs =>
      simp only [List.cons_append, List.cons.injEq] at h
      obtain ⟨hde, htail⟩ := h
      have ha' : '/' ∉ as := fun hm => ha (List.mem_cons_of_mem _ hm)
      have hb' : '/' ∉ bs := fun hm => hb (List.mem_cons_of_mem _ hm)
      obtain ⟨h1, h2⟩ := ih bs x y ha' hb' htail
      exact ⟨by rw [hde, h1], h2⟩

theorem slash_suffix_iff (p n m : List Char) (hn : '/' ∉ n) (hm : '/' ∉ m) :
    ('/' :: n <:+ p ++ '/' :: m) ↔ n = m := by
  constructor
  · rintro ⟨t, ht⟩
    have hrev := congrArg List.reverse ht
    simp only [List.reverse_append, List.reverse_cons] at hrev
    rw [List.append_assoc, List.append_assoc, List.singleton_append, List.singleton_append]
      at hrev
    have hnr : '/' ∉ n.reverse := fun h => hn (List.mem_reverse.mp h)
    have hmr : '/' ∉ m.reverse := fun h => hm (List.mem_reverse.mp h)
    have := (append_slash_inj n.reverse m.reverse t.reverse p.reverse hnr hmr hrev).1
    exact List.reverse_inj.mp this
  · rintro rfl
    exact ⟨p, rfl⟩

theorem not_arn_suffix (p cn dn : List Char) (hdn : '/' ∉ dn) :
    ¬ ('/' :: (p ++ '/' :: cn) <:+ p ++ '/' :: dn) := by
  rintro ⟨t, ht⟩
  have hcount := congrArg (List.count '/') ht
  simp [List.count_append, List.count_cons] at hcount
  have hdz : dn.count '/' = 0 := List.count_eq_zero.mpr hdn
  omega

theorem takeWhile_append_stop (q : Char → Bool) :
    ∀ (a : List Char) (x : Char) (b : List Char), (∀ y ∈ a, q y = true) → q x = false →
      (a ++ x :: b).takeWhile q = a := by
  intro a
  induction a with
  | nil =>
    intro x b _ hx
    simp [List.takeWhile_cons, hx]
  | cons z zs ih =>
    intro x b ha hx
    have hz : q z = true := ha z (List.mem_cons_self _ _)
    simp [List.takeWhile_cons, hz,
      ih x b (fun y hy => ha y (List.mem_cons_of_mem _ hy)) hx]

theorem lastSegment_append (p name : List Char) (hname : '/' ∉ name) :
    lastSegment (p ++ '/' :: name) = name := by
  unfold lastSegment
  rw [List.reverse_append, List.reverse_cons, List.append_assoc, List.singleton_append]
  rw [takeWhile_append_stop _ name.reverse '/' p.reverse ?_ ?_]
  · exact List.reverse_reverse name
  · intro y hy
    have hymem : y ∈ name := List.mem_reverse.mp hy
    simp only [decide_eq_true_eq]
    intro h
    exact hname (h ▸ hymem)
  · simp

theorem matchesCluster_iff (ident : JStr) (c : ClusterInfo) :
    matchesCluster ident c = true ↔
      (c.clusterName = ident ∨ c.clusterArn = ident ∨ ('/' :: ident <:+ c.clusterArn)) := by
  simp [matchesCluster, endsWith, Bool.or_eq_true, beq_iff_eq, decide_eq_true_eq,
    or_assoc]

/--
C7.  For every discovered cluster of a well-formed discovery result (every
cluster's ARN is a common prefix containing a colon, a slash, then the
cluster's name, names contain neither slash nor colon, and names are unique —
the shape of real ECS cluster ARNs), `findClusterByName` returns that cluster
whether given its bare name or its full ARN; the trailing path segment of its
ARN is exactly its bare name, so the ARN-suffix identifier form coincides
with the bare-name form; and an identifier matching no cluster in any of the
three forms yields `ClusterNotFoundError` carrying the identifier.
-/
theorem findClusterByName_identifier_forms (describe : JStr → RawCluster)
    (clusterArns : List JStr) (pre : JStr) (c : ClusterInfo)
    (hpre : ':' ∈ pre)
    (hwf : ∀ d ∈ discoverClusters describe clusterArns,
      d.clusterArn = pre ++ '/' :: d.clusterName)
    (hclean : ∀ d ∈ discoverClusters describe clusterArns,
      '/' ∉ d.clusterName ∧ ':' ∉ d.clusterName)
    (huniq : ∀ d₁ ∈ discoverClusters describe clusterArns,
      ∀ d₂ ∈ discoverClusters describe clusterArns, d₁.clusterName = d₂.clusterName → d₁ = d₂)
    (hc : c ∈ discoverClusters describe clusterArns) :
    findClusterByName describe clusterArns c.clusterName = .ok c ∧
    findClusterByName describe clusterArns c.clusterArn = .ok c ∧
    lastSegment c.clusterArn = c.clusterName ∧
    (∀ ident, (∀ d ∈ discoverClusters describe clusterArns, matchesCluster ident d = false) →
      findClusterByName describe clusterArns ident =
        .error (.ecsTrigger (.clusterNotFound ident))) := by
  have hname_match : ∀ d ∈ discoverClusters describe clusterArns,
      (matchesCluster c.clusterName d = true ↔ d = c) := by
    intro d hd
    rw [matchesCluster_iff]
    constructor
    · rintro (h | h | h)
      · exact huniq d hd c hc h
      · exfalso
        have hcolon : ':' ∈ d.clusterArn := by
          rw [hwf d hd]
          exact List.mem_append.mpr (.inl hpre)
        rw [h] at hcolon
        exact (hclean c hc).2 hcolon
      · rw [hwf d hd] at h
        have hnm := (slash_suffix_iff pre c.clusterName d.clusterName
          (hclean c hc).1 (hclean d hd).1).mp h
        exact huniq d hd c hc hnm.symm
    · rintro rfl
      exact Or.inl rfl
  have harn_match : ∀ d ∈ discoverClusters describe clusterArns,
      (matchesCluster c.clusterArn d = true ↔ d = c) := by
    intro d hd
    rw [matchesCluster_iff]
    constructor
    · rintro (h | h | h)
      · exfalso
        have hcolon : ':' ∈ c.clusterArn := by
          rw [hwf c hc]
          exact List.mem_append.mpr (.inl hpre)
        rw [← h] at hcolon
        exact (hclean d hd).2 hcolon
      · rw [hwf d hd, hwf c hc] at h
        have h2 := (List.append_right_inj pre).mp h
        injection h2 with _ h3
        exact huniq d hd c hc h3
      · exfalso
        rw [hwf d hd, hwf c hc] at h
        exact not_arn_suffix pre c.clusterName d.clusterName (hclean d hd).1 h
    · rintro rfl
      exact Or.inr (Or.inl rfl)
  refine ⟨?_, ?_, ?_, ?_⟩
  · unfold findClusterByName
    rw [find?_eq_some_of_unique (matchesCluster c.clusterName) c _ hc hname_match]
  · unfold findClusterByName
    rw [find?_eq_some_of_unique (matchesCluster c.clusterArn) c _ hc harn_match]
  · rw [hwf c hc]
    exact lastSegment_append pre c.clusterName (hclean c hc).1
  · intro ident hno
    unfold findClusterByName
    rw [List.find?_eq_none.mpr (fun d hd => by rw [hno d hd]; simp)]

/-- The second discovered witness cluster (`e:c/b`). -/
def witnessClusterB : ClusterInfo := toClusterInfo (witnessRawCluster "e:c/b".data)

/-- Witness for C7: at a concrete two-cluster world, lookup by bare name and
by full ARN both return cluster `b`, whose ARN's trailing segment is its
name, and an unmatched identifier raises `ClusterNotFoundError`. -/
theorem findClusterByName_identifier_forms_witness :
    findClusterByName witnessRawCluster witnessArns "b".data = .ok witnessClusterB ∧
    findClusterByName witnessRawCluster witnessArns "e:c/b".data = .ok witnessClusterB ∧
    lastSegment witnessClusterB.clusterArn = witnessClusterB.clusterName ∧
    findClusterByName witnessRawCluster witnessArns "zz".data =
      .error (.ecsTrigger (.clusterNotFound "zz".data)) := by
  have h := findClusterByName_identifier_forms witnessRawCluster witnessArns "e:c".data
    witnessClusterB (by decide) (by decide) (by decide) (by decide) (by decide)
  exact ⟨h.1, h.2.1, h.2.2.1, h.2.2.2 "zz".data (by decide)⟩

/-! ## C1, C2: the polling loop of waitForTaskStart -/

/-- A poll response on which the loop continues to the next attempt: a task
was found, its status is not a polling exit status, and it shows no stop
indicator. -/
def continuesB (response : List EcsTask) : Bool :=
  match response with
  | [] => false
  | task :: _ => !isPollExitStatus task.lastStatus && !hasStopIndicator task

theorem waitLoop_zero (d : Nat → List EcsTask) (attempts : Nat) :
    waitLoop d attempts 0 =
      (match d attempts with
       | [] => .error (.ecsTrigger (.taskStart "Task polling timed out".data []))
       | task :: _ => .ok task) := rfl

theorem waitLoop_succ (d : Nat → List EcsTask) (attempts fuel : Nat) :
    waitLoop d attempts (fuel + 1) =
      (match d attempts with
       | [] => .error (.ecsTrigger (.taskStart "Task not found during polling".data []))
       | task :: _ =>
         if isPollExitStatus task.lastStatus then .ok task
         else if hasStopIndicator task then
           .error (.ecsTrigger (.taskStart (stopMessage task) []))
         else waitLoop d (attempts + 1) fuel) := rfl

theorem waitLoop_stop_general (d : Nat → List EcsTask) (t : EcsTask) :
    ∀ (k attempts fuel : Nat), k < fuel →
      (∀ j, j < k → continuesB (d (attempts + j)) = true) →
      (d (attempts + k)).head? = some t →
      isPollExitStatus t.lastStatus = false →
      hasStopIndicator t = true →
      waitLoop d attempts fuel = .error (.ecsTrigger (.taskStart (stopMessage t) [])) := by
  intro k
  induction k with
  | zero =>
    intro attempts fuel hk _ hhead hexit hstop
    obtain ⟨f, rfl⟩ : ∃ f, fuel = f + 1 := ⟨fuel - 1, by omega⟩
    rw [Nat.add_zero] at hhead
    rcases hlist : d attempts with _ | ⟨t0, rest⟩
    · rw [hlist] at hhead
      cases hhead
    · rw [hlist] at hhead
      have ht0 : t0 = t := by
        simpa using hhead
      subst ht0
      rw [waitLoop_succ, hlist]
      simp [hexit, hstop]
  | succ k ih =>
    intro attempts fuel hk hprev hhead hexit hstop
    obtain ⟨f, rfl⟩ : ∃ f, fuel = f + 1 := ⟨fuel - 1, by omega⟩
    have h0 : continuesB (d attempts) = true := by
      have := hprev 0 (Nat.succ_pos k)
      rwa [Nat.add_zero] at this
    rcases hlist : d attempts with _ | ⟨t0, rest⟩
    · rw [hlist] at h0
      cases h0
    · rw [hlist] at h0
      simp only [continuesB, Bool.and_eq_true, Bool.not_eq_true'] at h0
      rw [waitLoop_succ, hlist]
      simp only [h0.1, h0.2, Bool.false_eq_true, if_false]
      apply ih (attempts + 1) f (by omega)
      · intro j hj
        have := hprev (j + 1) (by omega)
        rwa [show attempts + (j + 1) = attempts + 1 + j by omega] at this
      · rwa [show attempts + 1 + k = attempts + (k + 1) by omega]
      · exact hexit
      · exact hstop

/--
C1 (amended).  If some polling attempt `k` (0-based, within the 30 attempts)
of `waitForTaskStart` observes a task with a stop code or stopped reason
while its last status is not RUNNING, STOPPED or DEPROVISIONING — all earlier
attempts having observed a continuing task — then the runner fails at that
attempt with a `TaskStartError` carrying the reason, and it issues no further
polling attempts: any describe sequence agreeing up to attempt `k` produces
the same immediate failure, so the later attempts are never consulted.
-/
theorem waitForTaskStart_stop_reason_immediate (d : Nat → List EcsTask)
    (k : Nat) (t : EcsTask)
    (hk : k < MAX_POLL_ATTEMPTS)
    (hprev : ∀ j, j < k → continuesB (d j) = true)
    (hhead : (d k).head? = some t)
    (hexit : isPollExitStatus t.lastStatus = false)
    (hstop : hasStopIndicator t = true) :
    waitForTaskStart d = .error (.ecsTrigger (.taskStart (stopMessage t) [])) ∧
    (∀ d2 : Nat → List EcsTask, (∀ j, j ≤ k → d2 j = d j) →
      waitForTaskStart d2 = .error (.ecsTrigger (.taskStart (stopMessage t) []))) := by
  constructor
  · apply waitLoop_stop_general d t k 0 MAX_POLL_ATTEMPTS hk
    · intro j hj
      rw [Nat.zero_add]
      exact hprev j hj
    · rwa [Nat.zero_add]
    · exact hexit
    · exact hstop
  · intro d2 hagree
    apply waitLoop_stop_general d2 t k 0 MAX_POLL_ATTEMPTS hk
    · intro j hj
      rw [Nat.zero_add, hagree j (Nat.le_of_lt hj)]
      exact hprev j hj
    · rw [Nat.zero_add, hagree k (Nat.le_refl k)]
      exact hhead
    · exact hexit
    · exact hstop

/-- A described task that is still pending: no exit status, no stop indicator. -/
def pendingPollTask : EcsTask :=
  { taskArn := some "t1".data
    clusterArn := some "c".data
    taskDefinitionArn := none
    lastStatus := some "PENDING".data
    desiredStatus := some "RUNNING".data
    stopCode := none
    stoppedReason := none
    startedBy := none
    launchType := none
    platformVersion := none
    containers := []
    createdAt := none
    startedAt := none }

/-- A described task with a stopped reason while still outside the exit
statuses. -/
def stopReasonPollTask : EcsTask :=
  { pendingPollTask with lastStatus := some "DEPROVISIONING_FAILED".data,
                         stoppedReason := some "boom".data }

/-- A described task whose last status is STOPPED and which also carries a
stopped reason. -/
def stoppedWithReasonTask : EcsTask :=
  { pendingPollTask with lastStatus := some "STOPPED".data,
                         stoppedReason := some "oom".data }

/-- Describe sequence for the C1 witness: attempts 0 and 1 observe a pending
task, attempt 2 (the third attempt) observes a stopped reason. -/
def witnessPollStop : Nat → List EcsTask :=
  fun n => if n < 2 then [pendingPollTask] else [stopReasonPollTask]

/-- Witness for C1 (amended): a stopped reason observed on the third attempt
fails immediately with the reason. -/
theorem waitForTaskStart_stop_reason_immediate_witness :
    waitForTaskStart witnessPollStop =
      .error (.ecsTrigger (.taskStart (stopMessage stopReasonPollTask) [])) :=
  (waitForTaskStart_stop_reason_immediate witnessPollStop 2 stopReasonPollTask
    (by decide) (by decide) (by decide) (by decide) (by decide)).1

/--
C1 counterexample to the claim as stated: the status check precedes the
stop-indicator check in `waitForTaskStart`, so a describe call that reports a
`stoppedReason` on a task whose last status is already STOPPED does not fail
with `TaskStartError` — the task is returned as the successful polling
result.
-/
theorem waitForTaskStart_stopped_reason_not_error :
    jsTruthy stoppedWithReasonTask.stoppedReason = true ∧
    waitForTaskStart (fun _ => [stoppedWithReasonTask]) = .ok stoppedWithReasonTask := by
  exact ⟨by decide, by decide⟩

theorem waitLoop_exhausts (d : Nat → List EcsTask) :
    ∀ (fuel attempts : Nat),
      (∀ j, j < fuel → continuesB (d (attempts + j)) = true) →
      waitLoop d attempts fuel =
        (match d (attempts + fuel) with
         | [] => .error (.ecsTrigger (.taskStart "Task polling timed out".data []))
         | task :: _ => .ok task) := by
  intro fuel
  induction fuel with
  | zero =>
    intro attempts _
    rw [waitLoop_zero, Nat.add_zero]
  | succ f ih =>
    intro attempts h
    have h0 : continuesB (d attempts) = true := by
      have := h 0 (Nat.succ_pos f)
      rwa [Nat.add_zero] at this
    rcases hlist : d attempts with _ | ⟨t0, rest⟩
    · rw [hlist] at h0
      cases h0
    · rw [hlist] at h0
      simp only [continuesB, Bool.and_eq_true, Bool.not_eq_true'] at h0
      rw [waitLoop_succ, hlist]
      simp only [h0.1, h0.2, Bool.false_eq_true, if_false]
      rw [ih (attempts + 1) (fun j hj => by
        have := h (j + 1) (by omega)
        rwa [show attempts + (j + 1) = attempts + 1 + j by omega] at this)]
      rw [show attempts + 1 + f = attempts + (f + 1) by omega]

/--
C2.  When all 30 polling attempts observe a continuing task (found, not in an
exit status, no stop indicator), `waitForTaskStart` issues one final describe
call (call number 30) and returns its observed task as the result — not a
synthetic timeout error; only when that final call returns no task does it
fail with the hard "Task polling timed out" `TaskStartError`.  Moreover the
result depends only on describe calls 0..30: any describe sequence agreeing
on those calls produces the identical result, so exactly one describe beyond
the 30 attempts is consulted.
-/
theorem waitForTaskStart_timeout_final_describe (d : Nat → List EcsTask)
    (h : ∀ j, j < MAX_POLL_ATTEMPTS → continuesB (d j) = true) :
    waitForTaskStart d =
      (match d MAX_POLL_ATTEMPTS with
       | [] => .error (.ecsTrigger (.taskStart "Task polling timed out".data []))
       | task :: _ => .ok task) ∧
    (∀ d2 : Nat → List EcsTask, (∀ j, j ≤ MAX_POLL_ATTEMPTS → d2 j = d j) →
      waitForTaskStart d2 = waitForTaskStart d) := by
  have key : waitForTaskStart d =
      (match d MAX_POLL_ATTEMPTS with
       | [] => .error (.ecsTrigger (.taskStart "Task polling timed out".data []))
       | task :: _ => .ok task) := by
    have := waitLoop_exhausts d MAX_POLL_ATTEMPTS 0 (fun j hj => by
      rw [Nat.zero_add]
      exact h j hj)
    rwa [Nat.zero_add] at this
  refine ⟨key, ?_⟩
  intro d2 hagree
  have key2 : waitForTaskStart d2 =
      (match d2 MAX_POLL_ATTEMPTS with
       | [] => .error (.ecsTrigger (.taskStart "Task polling timed out".data []))
       | task :: _ => .ok task) := by
    have := waitLoop_exhausts d2 MAX_POLL_ATTEMPTS 0 (fun j hj => by
      rw [Nat.zero_add, hagree j (Nat.le_of_lt hj)]
      exact h j hj)
    rwa [Nat.zero_add] at this
  rw [key2, key, hagree MAX_POLL_ATTEMPTS (Nat.le_refl _)]

/-- Describe sequence for the C2 witness: every call observes the same
pending task. -/
def witnessPollPending : Nat → List EcsTask := fun _ => [pendingPollTask]

/-- Witness for C2: thirty pending observations end in the final describe's
snapshot being returned, not in an error. -/
theorem waitForTaskStart_timeout_final_describe_witness :
    waitForTaskStart witnessPollPending = .ok pendingPollTask :=
  (waitForTaskStart_timeout_final_describe witnessPollPending (by decide)).1.trans (by decide)

/-! ## C3: network-configuration resolution policy of the runner -/

/--
C3.  `runScheduledTask` consults the resolution strategies exactly when the
task's launch type is FARGATE and its network configuration is absent; the
sibling-service strategy is consulted in every such run, the
recent-task-history strategy exactly when the sibling-service strategy
returned nothing; and when both strategies return nothing the run fails with
the `TaskStartError` explaining that no network configuration was found,
without a launch request having been submitted.
-/
theorem runScheduledTask_resolution_policy (task : ScheduledTask) (w : RunnerWorld) :
    (runScheduledTask task w).2.svcCalled =
      (task.networkConfiguration.isNone && (task.launchType == some .FARGATE)) ∧
    (runScheduledTask task w).2.histCalled =
      ((runScheduledTask task w).2.svcCalled && w.svcConfig.isNone) ∧
    (task.networkConfiguration = none → task.launchType = some .FARGATE →
      w.svcConfig = none → w.histConfig = none →
      (runScheduledTask task w).1 =
        .error (.ecsTrigger (.taskStart noNetworkConfigMessage [])) ∧
      (runScheduledTask task w).2.launchSubmitted = false) := by
  by_cases hcond :
      (task.networkConfiguration.isNone && (task.launchType == some .FARGATE)) = true
  · rcases hsvc : w.svcConfig with _ | nc
    · rcases hhist : w.histConfig with _ | nc2
      · refine ⟨?_, ?_, ?_⟩ <;>
          simp [runScheduledTask, resolveNetworkConfiguration, hcond, hsvc, hhist,
            RunnerTrace.launchSubmitted]
      · refine ⟨?_, ?_, ?_⟩ <;>
          simp [runScheduledTask, resolveNetworkConfiguration, hcond, hsvc, hhist,
            RunnerTrace.launchSubmitted]
    · refine ⟨?_, ?_, ?_⟩ <;>
        simp [runScheduledTask, resolveNetworkConfiguration, hcond, hsvc,
          RunnerTrace.launchSubmitted]
  · have hcond' :
        (task.networkConfiguration.isNone && (task.launchType == some .FARGATE)) = false := by
      revert hcond
      cases task.networkConfiguration.isNone && (task.launchType == some .FARGATE) <;> simp
    refine ⟨?_, ?_, ?_⟩ <;>
      simp [runScheduledTask, resolveNetworkConfiguration, hcond',
        RunnerTrace.launchSubmitted]
    intro h1 h2
    rw [h1, h2] at hcond'
    simp at hcond'

/-- A concrete Fargate scheduled task without a network configuration. -/
def witnessFargateTask : ScheduledTask :=
  { ruleName := "r".data
    ruleArn := "ra".data
    scheduleExpression := none
    clusterArn := "c".data
    taskDefinitionArn := "task-definition/web:3".data
    networkConfiguration := none
    launchType := some .FARGATE
    platformVersion := none
    enabled := true
    taskCount := 1
    source := .eventbridgeRules }

/-- A runner world in which both resolution strategies find nothing. -/
def witnessEmptyWorld : RunnerWorld :=
  { svcConfig := none
    histConfig := none
    runTask := { failures := [], tasks := [] }
    describePoll := fun _ => [] }

/-- Witness for C3: with both strategies empty, the run fails with the
no-network-configuration `TaskStartError` and no launch was submitted. -/
theorem runScheduledTask_resolution_policy_witness :
    (runScheduledTask witnessFargateTask witnessEmptyWorld).1 =
      .error (.ecsTrigger (.taskStart noNetworkConfigMessage [])) ∧
    (runScheduledTask witnessFargateTask witnessEmptyWorld).2.launchSubmitted = false :=
  (runScheduledTask_resolution_policy witnessFargateTask witnessEmptyWorld).2.2
    rfl rfl rfl rfl

/-! ## C5: one failing discovery source never fails overall discovery -/

/--
C5.  A thrown failure inside the rule-based sub-discovery leaves exactly the
scheduler-based results (and vice versa), so `discoverScheduledTasks` — a
total function — never fails because one source is unavailable; and when both
sources succeed, the rule-based results precede the scheduler-based results
in the concatenation.
-/
theorem discoverScheduledTasks_partial_results (rulesEnv : RulesEnv)
    (schedulerEnv : SchedulerEnv) (clusterFilter : Option JStr) :
    (∀ m, discoverFromEventBridgeRules rulesEnv clusterFilter = .error m →
      discoverScheduledTasks rulesEnv schedulerEnv clusterFilter =
        (match discoverFromEventBridgeScheduler schedulerEnv clusterFilter with
         | .ok tasks => tasks
         | .error _ => [])) ∧
    (∀ m, discoverFromEventBridgeScheduler schedulerEnv clusterFilter = .error m →
      discoverScheduledTasks rulesEnv schedulerEnv clusterFilter =
        (match discoverFromEventBridgeRules rulesEnv clusterFilter with
         | .ok tasks => tasks
         | .error _ => [])) ∧
    (∀ fromRules fromScheduler,
      discoverFromEventBridgeRules rulesEnv clusterFilter = .ok fromRules →
      discoverFromEventBridgeScheduler schedulerEnv clusterFilter = .ok fromScheduler →
      discoverScheduledTasks rulesEnv schedulerEnv clusterFilter =
        fromRules ++ fromScheduler) := by
  refine ⟨?_, ?_, ?_⟩
  · intro m h
    unfold discoverScheduledTasks
    rw [h]
    rfl
  · intro m h
    unfold discoverScheduledTasks
    rw [h]
    simp
  · intro fromRules fromScheduler h1 h2
    unfold discoverScheduledTasks
    rw [h1, h2]

/-- A rule-based discovery environment whose listing call throws. -/
def witnessBadRulesEnv : RulesEnv :=
  { listRules := .error "down".data
    listTargets := fun _ => .ok [] }

/-- A scheduler environment with one schedule whose detail fetch throws (the
per-schedule catch swallows it, so the source succeeds with zero results). -/
def witnessSchedulerEnv : SchedulerEnv :=
  { listSchedules := .ok [{ Name := some "s1".data, GroupName := none }]
    getSchedule := fun _ _ => .error "boom".data }

/-- Witness for C5: with the rule-based source down, discovery still returns
the scheduler-based results. -/
theorem discoverScheduledTasks_partial_results_witness :
    discoverScheduledTasks witnessBadRulesEnv witnessSchedulerEnv none = [] :=
  ((discoverScheduledTasks_partial_results witnessBadRulesEnv witnessSchedulerEnv none).1
    "down".data rfl).trans (by decide)

/-! ## C6: field-name casing normalization -/

/-- A raw EventBridge network configuration carrying one logical
configuration entirely under the upper-case field names. -/
def upperCasedRaw (subnets : List JStr) (securityGroups : Option (List JStr))
    (assignPublicIp : Option Apip) : EbNetworkConfigurationRaw :=
  { awsvpcConfigurationL := none
    AwsvpcConfigurationU := some
      { SubnetsU := some subnets
        subnetsL := none
        SecurityGroupsU := securityGroups
        securityGroupsL := none
        AssignPublicIpU := assignPublicIp
        assignPublicIpL := none } }

/-- The same logical configuration entirely under the lower-case field names. -/
def lowerCasedRaw (subnets : List JStr) (securityGroups : Option (List JStr))
    (assignPublicIp : Option Apip) : EbNetworkConfigurationRaw :=
  { awsvpcConfigurationL := some
      { SubnetsU := none
        subnetsL := some subnets
        SecurityGroupsU := none
        securityGroupsL := securityGroups
        AssignPublicIpU := none
        assignPublicIpL := assignPublicIp }
    AwsvpcConfigurationU := none }

/--
C6.  For every logical network configuration, `convertNetworkConfiguration`
produces the identical ECS-format result whether the raw data uses the
upper-case or the lower-case field names; both normalize to the ECS shape
carrying exactly the logical fields (or `none` when the subnet list is
empty).
-/
theorem convertNetworkConfiguration_case_insensitive (subnets : List JStr)
    (securityGroups : Option (List JStr)) (assignPublicIp : Option Apip) :
    convertNetworkConfiguration (some (upperCasedRaw subnets securityGroups assignPublicIp)) =
      convertNetworkConfiguration
        (some (lowerCasedRaw subnets securityGroups assignPublicIp)) ∧
    convertNetworkConfiguration (some (upperCasedRaw subnets securityGroups assignPublicIp)) =
      (if subnets.isEmpty then none
       else some (NetworkConfiguration.mk
         (some (AwsvpcConfiguration.mk subnets securityGroups assignPublicIp)))) := by
  cases securityGroups <;> cases assignPublicIp <;> exact ⟨rfl, rfl⟩

/-! ## C8: sibling-service network-configuration preference -/

theorem findServiceInBatches_eq (p : EcsService → Bool) (describeService : JStr → EcsService) :
    ∀ (bs : List (List JStr)),
      findServiceInBatches p describeService bs = (bs.flatten.map describeService).find? p := by
  intro bs
  induction bs with
  | nil => rfl
  | cons b rest ih =>
    simp only [findServiceInBatches, List.flatten_cons, List.map_append, List.find?_append]
    rcases h : (b.map describeService).find? p with _ | s
    · rw [ih]
      rfl
    · rfl

/--
C8.  `findNetworkConfigurationFromService` equals a two-pass scan over the
described services in listing order: the first pass returns the configuration
of the first service whose task-definition family equals the target's family
and which carries a network configuration; only when no service passes the
first pass does the second pass return the configuration of the first service
with a non-empty subnet list.  Hence whenever any exact-family service with a
configuration exists, a family-matching service's configuration is returned —
preferred over every non-matching service; and within `runScheduledTask` a
configuration produced by this resolver preempts the task-history strategy,
which is then never consulted, and is the configuration submitted with the
launch request.
-/
theorem findNetworkConfigurationFromService_prefers_family
    (describeService : JStr → EcsService) (serviceArns : List JStr)
    (taskDefinitionArn : JStr) :
    (findNetworkConfigurationFromService describeService serviceArns taskDefinitionArn =
      (match (serviceArns.map describeService).find?
          (serviceFamilyMatch (getTaskDefinitionFamily taskDefinitionArn)) with
       | some s => s.networkConfiguration
       | none =>
         match (serviceArns.map describeService).find? serviceHasSubnets with
         | some s => s.networkConfiguration
         | none => none)) ∧
    ((∃ s ∈ serviceArns.map describeService,
        serviceFamilyMatch (getTaskDefinitionFamily taskDefinitionArn) s = true) →
      ∃ s, (serviceArns.map describeService).find?
          (serviceFamilyMatch (getTaskDefinitionFamily taskDefinitionArn)) = some s ∧
        serviceFamilyMatch (getTaskDefinitionFamily taskDefinitionArn) s = true ∧
        findNetworkConfigurationFromService describeService serviceArns taskDefinitionArn =
          s.networkConfiguration) ∧
    ((∀ s ∈ serviceArns.map describeService,
        serviceFamilyMatch (getTaskDefinitionFamily taskDefinitionArn) s = false) →
      (∃ s ∈ serviceArns.map describeService, serviceHasSubnets s = true) →
      ∃ s, (serviceArns.map describeService).find? serviceHasSubnets = some s ∧
        serviceHasSubnets s = true ∧
        findNetworkConfigurationFromService describeService serviceArns taskDefinitionArn =
          s.networkConfiguration) ∧
    (∀ (task : ScheduledTask) (w : RunnerWorld) (nc : NetworkConfiguration),
      task.networkConfiguration = none → task.launchType = some .FARGATE →
      w.svcConfig =
        findNetworkConfigurationFromService describeService serviceArns taskDefinitionArn →
      findNetworkConfigurationFromService describeService serviceArns taskDefinitionArn =
        some nc →
      (runScheduledTask task w).2.histCalled = false ∧
      (runScheduledTask task w).2.launchConfig = some (some nc)) := by
  have main : findNetworkConfigurationFromService describeService serviceArns
      taskDefinitionArn =
      (match (serviceArns.map describeService).find?
          (serviceFamilyMatch (getTaskDefinitionFamily taskDefinitionArn)) with
       | some s => s.networkConfiguration
       | none =>
         match (serviceArns.map describeService).find? serviceHasSubnets with
         | some s => s.networkConfiguration
         | none => none) := by
    by_cases he : serviceArns.isEmpty
    · have he' : serviceArns = [] := List.isEmpty_iff.mp he
      subst he'
      rfl
    · simp only [findNetworkConfigurationFromService, if_neg he, findServiceInBatches_eq,
        chunksOf_flatten 10 (by omega) serviceArns]
  refine ⟨main, ?_, ?_, ?_⟩
  · intro hex
    have hsome : ((serviceArns.map describeService).find?
        (serviceFamilyMatch (getTaskDefinitionFamily taskDefinitionArn))).isSome :=
      List.find?_isSome.mpr hex
    obtain ⟨s, hs⟩ := Option.isSome_iff_exists.mp hsome
    refine ⟨s, hs, List.find?_some hs, ?_⟩
    rw [main, hs]
  · intro hnone hex
    have hfnone : (serviceArns.map describeService).find?
        (serviceFamilyMatch (getTaskDefinitionFamily taskDefinitionArn)) = none :=
      List.find?_eq_none.mpr (fun s hs => by rw [hnone s hs]; simp)
    have hsome : ((serviceArns.map describeService).find? serviceHasSubnets).isSome :=
      List.find?_isSome.mpr hex
    obtain ⟨s, hs⟩ := Option.isSome_iff_exists.mp hsome
    refine ⟨s, hs, List.find?_some hs, ?_⟩
    rw [main, hfnone, hs]
  · intro task w nc h1 h2 hw hsome
    rw [hsome] at hw
    have hcond : (task.networkConfiguration.isNone && (task.launchType == some .FARGATE))
        = true := by
      rw [h1, h2]
      rfl
    simp [runScheduledTask, resolveNetworkConfiguration, hcond, hw]

/-- Network configuration with a single subnet, as carried by the witness
services. -/
def witnessNc (subnet : JStr) : NetworkConfiguration :=
  { awsvpcConfiguration := some
      { subnets := [subnet], securityGroups := none, assignPublicIp := none } }

/-- Witness describe oracle: service `a1` runs family `db`, service `a2` runs
family `web`; both carry configurations with subnets. -/
def witnessServiceOracle : JStr → EcsService := fun a =>
  if a = "a1".data then
    { serviceName := some "svc1".data
      taskDefinition := some "task-definition/db:1".data
      networkConfiguration := some (witnessNc "sub-db".data) }
  else
    { serviceName := some "svc2".data
      taskDefinition := some "task-definition/web:9".data
      networkConfiguration := some (witnessNc "sub-web".data) }

/-- Witness service listing. -/
def witnessServiceArns : List JStr := ["a1".data, "a2".data]

/-- Runner world whose sibling-service strategy result is the resolver's
output for the witness services and the `web` target family. -/
def witnessServiceWorld : RunnerWorld :=
  { svcConfig := findNetworkConfigurationFromService witnessServiceOracle witnessServiceArns
      witnessFargateTask.taskDefinitionArn
    histConfig := none
    runTask := { failures := [], tasks := [] }
    describePoll := fun _ => [] }

set_option maxRecDepth 10000 in
/-- Witness for C8: the resolver's service-derived configuration (the
family-matching `web` service, preferred over the earlier non-matching `db`
service) preempts the task-history strategy inside the runner and is the
submitted launch configuration. -/
theorem findNetworkConfigurationFromService_prefers_family_witness :
    (runScheduledTask witnessFargateTask witnessServiceWorld).2.histCalled = false ∧
    (runScheduledTask witnessFargateTask witnessServiceWorld).2.launchConfig =
      some (some (witnessNc "sub-web".data)) :=
  (findNetworkConfigurationFromService_prefers_family witnessServiceOracle
      witnessServiceArns witnessFargateTask.taskDefinitionArn).2.2.2
    witnessFargateTask witnessServiceWorld (witnessNc "sub-web".data)
    rfl rfl rfl (by decide)

/-! ## C9: the console deep-link URL of the execution result -/

/--
C9 (code evaluation).  `formatTaskResult` — the only producer of
`TaskExecutionResult` values, used by every successful `runScheduledTask`
run — never populates `consoleUrl`, although `types.ts` declares the field as
a required `string` and `handleExecuteMode` prints it on the diagnostic
stream: for every final task description the produced result carries no
console URL, and the printed diagnostic line reads `AWS Console: undefined`.
-/
theorem formatTaskResult_missing_consoleUrl (task : EcsTask) :
    (formatTaskResult task).consoleUrl = none ∧
    consoleLine (formatTaskResult task) = "\nAWS Console: undefined".data :=
  ⟨rfl, rfl⟩

/-! ## C10: empty selections raise plain errors that bypass the handler -/

/--
C10.  On the empty input list, `selectCluster` and `selectScheduledTask`
throw plain `Error`s ("No ECS clusters found" / "No scheduled tasks found")
rather than prompting or returning a value; because these are not
`EcsTriggerError` instances, the `run()` error handler in `main` re-throws
them, so an empty discovery result in interactive mode reaches the outer
handler as an unexpected error instead of the single-line `EcsTriggerError`
exit path.
-/
theorem selectors_empty_list_plain_error
    (chooseCluster : List ClusterInfo → ClusterInfo)
    (chooseTask : List ScheduledTask → ScheduledTask) :
    selectCluster chooseCluster [] = .error (.plain "No ECS clusters found".data) ∧
    selectScheduledTask chooseTask [] = .error (.plain "No scheduled tasks found".data) ∧
    (JsError.plain "No ECS clusters found".data).isEcsTriggerError = false ∧
    (JsError.plain "No scheduled tasks found".data).isEcsTriggerError = false ∧
    mainCatch (.error (.plain "No ECS clusters found".data)) =
      .unexpectedExit (.plain "No ECS clusters found".data) ∧
    mainCatch (.error (.plain "No scheduled tasks found".data)) =
      .unexpectedExit (.plain "No scheduled tasks found".data) :=
  ⟨rfl, rfl, rfl, rfl, rfl, rfl⟩

end EcsTrigger
